import Mathlib

/-!
Verification of the context-compacting coding agent: a shallow embedding of
its message store, budget estimator, compactor and agent retry loop, with
theorems checking the documented properties against the embedded code.

External effects (the LLM transport's summarization and chat calls, wall-clock
time, the docker CLI) are passed in as explicit oracle parameters, so every
embedded operation is a pure executable function of its inputs.
-/

/-- Role of a conversation turn: the closed set {user, assistant, system}. -/
inductive Role where
  | user
  | assistant
  | system
deriving DecidableEq, Repr

/-- Upper-case rendering of a role (JS `m.role.toUpperCase()`), used when the
compactor renders discarded turns into the summarization prompt. -/
def Role.upper : Role → String
  | .user => "USER"
  | .assistant => "ASSISTANT"
  | .system => "SYSTEM"

/-- A conversation turn as the compaction modules handle it: a role plus text
content (structured tool content is serialized to text before it gets here). -/
structure CoreMessage where
  role : Role
  content : String
deriving DecidableEq, Repr

namespace Compaction

/-! The compaction module bundled in src/index.ts: `COMPACT_THRESHOLD`,
`shouldCompact`, `isContextOverflowError` and `compactMessages(messages, keepLast)`. -/

/-- Compact when approaching 75% of the 200k context window. -/
def COMPACT_THRESHOLD : Nat := 150000

/-- `shouldCompact(inputTokens)`: true iff the reported input-token count of the
last request strictly exceeds `COMPACT_THRESHOLD`. -/
def shouldCompact (inputTokens : Nat) : Bool :=
  decide (COMPACT_THRESHOLD < inputTokens)

/-- JS `s.includes(sub)`: `sub` occurs contiguously inside `s`. -/
def strIncludes (s sub : String) : Bool :=
  decide (sub.toList <:+: s.toList)

/-- JS `s.toLowerCase()`: char-wise lower-casing of the string. -/
def strToLower (s : String) : String :=
  ⟨s.toList.map Char.toLower⟩

/-- `isContextOverflowError`: lower-case the error message and test it for the
substrings "context", "token" and "too long". -/
def isContextOverflowError (message : String) : Bool :=
  let msg := strToLower message
  strIncludes msg "context" || strIncludes msg "token" || strIncludes msg "too long"

/-- The system turns of a history, in order (`messages.filter(m => m.role === "system")`). -/
def systemPart (messages : List CoreMessage) : List CoreMessage :=
  messages.filter fun m => decide (m.role = Role.system)

/-- The non-system turns of a history, in order (`messages.filter(m => m.role !== "system")`). -/
def nonSystemPart (messages : List CoreMessage) : List CoreMessage :=
  messages.filter fun m => decide (m.role ≠ Role.system)

/-- `nonSystemMsgs.slice(0, -keepLast)`: the old turns the compactor discards.
JS slice semantics: with `keepLast = 0` the end index `-0` is `0`, so the slice
is empty; otherwise it is all but the last `keepLast` elements (clamped at 0). -/
def oldPart (messages : List CoreMessage) (keepLast : Nat) : List CoreMessage :=
  if keepLast = 0 then []
  else (nonSystemPart messages).take ((nonSystemPart messages).length - keepLast)

/-- `nonSystemMsgs.slice(-keepLast)`: the recent turns the compactor keeps
verbatim. JS slice semantics: with `keepLast = 0` the start index `-0` is `0`,
so the whole list is kept; otherwise the last `keepLast` elements (clamped). -/
def recentPart (messages : List CoreMessage) (keepLast : Nat) : List CoreMessage :=
  if keepLast = 0 then nonSystemPart messages
  else (nonSystemPart messages).drop ((nonSystemPart messages).length - keepLast)

/-- The rendered block of old turns: one `<ROLE>: <content>` line per turn,
joined with blank lines. -/
def oldText (oldMsgs : List CoreMessage) : String :=
  String.intercalate "\n\n" (oldMsgs.map fun m => m.role.upper ++ ": " ++ m.content)

/-- The single user-role summarization request the compactor sends upstream. -/
def summaryPrompt (oldMsgs : List CoreMessage) : String :=
  "Summarize this conversation concisely, keeping key decisions, code changes, and context:\n\n"
    ++ oldText oldMsgs

/-- `compactMessages(messages, keepLast)` from src/index.ts, with the external
LLM call abstracted as an oracle `summarize : prompt → Option summaryText`
(`some` = the request succeeded with that text, `none` = it threw). When there
is nothing to discard the input is returned unchanged; on success the result is
system turns, one synthetic assistant summary turn, then the kept recent turns;
on failure the fallback drops the old turns and keeps `system ++ recent`. -/
def compactMessages (summarize : String → Option String) (messages : List CoreMessage)
    (keepLast : Nat) : List CoreMessage :=
  if (oldPart messages keepLast).length = 0 then messages
  else
    match summarize (summaryPrompt (oldPart messages keepLast)) with
    | some summary =>
        systemPart messages
          ++ ⟨Role.assistant,
                "[Summary of " ++ toString (oldPart messages keepLast).length
                  ++ " previous messages]\n" ++ summary⟩
            :: recentPart messages keepLast
    | none => systemPart messages ++ recentPart messages keepLast

end Compaction

namespace CompactionAlt

/-! The standalone compaction module variant (the unnamed source file with
`CONTEXT_LIMIT_TOKENS` and `estimateTokens`): its character-based budget
estimator and threshold check. -/

/-- Compact when approaching ~150k tokens (roughly 75% of the 200k window). -/
def CONTEXT_LIMIT_TOKENS : Nat := 150000

/-- Total character length of all turn contents
(`messages.reduce((sum, msg) => sum + content.length, 0)`). -/
def totalChars (messages : List CoreMessage) : Nat :=
  messages.foldl (fun sum msg => sum + msg.content.length) 0

/-- `estimateTokens`: `Math.ceil(totalChars * 0.25)` — a quarter of the total
character count, rounded up; in exact integer arithmetic `(totalChars + 3) / 4`. -/
def estimateTokens (messages : List CoreMessage) : Nat :=
  (totalChars messages + 3) / 4

/-- `shouldCompact(messages)`: true iff the estimate strictly exceeds
`CONTEXT_LIMIT_TOKENS`. -/
def shouldCompact (messages : List CoreMessage) : Bool :=
  decide (CONTEXT_LIMIT_TOKENS < estimateTokens messages)

end CompactionAlt

/-! ## The message store (session module) -/

/-- A stored message row: Turns(sessionId, role, content, sequence). The random
UUID primary key and the createdAt timestamp play no part in any claim (readers
order by sequence, never by timestamp) and are omitted. -/
structure MessageRow where
  sessionId : String
  role : Role
  content : String
  sequence : Nat
deriving DecidableEq, Repr

/-- A stored session row: Sessions(id, createdAt, updatedAt), timestamps as
abstract instants. -/
structure SessionRow where
  id : String
  createdAt : Nat
  updatedAt : Nat
deriving DecidableEq, Repr

/-- A stored sandbox-handle row: SandboxHandles(sessionId, containerId). -/
structure ContainerRow where
  sessionId : String
  containerId : String
deriving DecidableEq, Repr

/-- The persisted state: the three relations, each in insertion order. -/
structure Db where
  sessions : List SessionRow
  messages : List MessageRow
  containers : List ContainerRow
deriving DecidableEq, Repr

/-- The store with no rows at all. -/
def emptyDb : Db := ⟨[], [], []⟩

namespace Session

/-- The session's message rows in insertion order (`WHERE session_id = ?`). -/
def rowsFor (db : Db) (sessionId : String) : List MessageRow :=
  db.messages.filter fun r => decide (r.sessionId = sessionId)

/-- The `ORDER BY sequence DESC LIMIT 1` lookup combined with
`(maxMessage[0]?.sequence ?? -1) + 1`: one greater than the session's current
maximum sequence, or 0 when the session has no rows. -/
def nextSequence (db : Db) (sessionId : String) : Nat :=
  match ((rowsFor db sessionId).map (fun r => r.sequence)).max? with
  | none => 0
  | some m => m + 1

/-- `saveMessage`: insert a row carrying the next sequence number, then bump the
session's updated-timestamp to the current time (`new Date()`), which is passed
in explicitly as `now`. -/
def saveMessage (db : Db) (sessionId : String) (role : Role) (content : String)
    (now : Nat) : Db :=
  { db with
    messages := db.messages ++ [⟨sessionId, role, content, nextSequence db sessionId⟩]
    sessions := db.sessions.map fun s =>
      if s.id = sessionId then { s with updatedAt := now } else s }

/-- The session's rows sorted ascending by sequence (`ORDER BY sequence ASC`). -/
def loadRows (db : Db) (sessionId : String) : List MessageRow :=
  List.insertionSort (fun a b => a.sequence ≤ b.sequence) (rowsFor db sessionId)

/-- `loadMessages`: the sorted rows projected to role/content turns. -/
def loadMessages (db : Db) (sessionId : String) : List CoreMessage :=
  (loadRows db sessionId).map fun r => ⟨r.role, r.content⟩

/-- `clearMessages`: delete every message row of the session. -/
def clearMessages (db : Db) (sessionId : String) : Db :=
  { db with messages := db.messages.filter fun r => decide (¬ r.sessionId = sessionId) }

/-- The rows the compaction write inserts: the given turns with sequence fields
renumbered i, i+1, ... in the given order (the loop body
`db.insert(messages).values({ ..., sequence: i })`). -/
def compactedRows (sessionId : String) : Nat → List CoreMessage → List MessageRow
  | _, [] => []
  | i, m :: ms => ⟨sessionId, m.role, m.content, i⟩ :: compactedRows sessionId (i + 1) ms

/-- `saveCompactedMessages`: clear the session's message rows, then insert the
compacted turns with sequence 0..N-1. Only message rows are touched. -/
def saveCompactedMessages (db : Db) (sessionId : String)
    (compactedMessages : List CoreMessage) : Db :=
  let cleared := clearMessages db sessionId
  { cleared with messages := cleared.messages ++ compactedRows sessionId 0 compactedMessages }

/-- One store mutation: an append (`saveMessage`) or a replace-all
(`saveCompactedMessages`), for interleaving histories. -/
inductive StoreOp where
  | append (sessionId : String) (role : Role) (content : String) (now : Nat)
  | replaceAll (sessionId : String) (turns : List CoreMessage)

/-- Apply one store mutation. -/
def applyOp (db : Db) : StoreOp → Db
  | .append sessionId role content now => saveMessage db sessionId role content now
  | .replaceAll sessionId turns => saveCompactedMessages db sessionId turns

/-- Apply an arbitrary interleaving of store mutations, in order. -/
def applyOps (ops : List StoreOp) (db : Db) : Db :=
  ops.foldl applyOp db

instance : IsTotal MessageRow fun a b => a.sequence ≤ b.sequence :=
  ⟨fun a b => Nat.le_total a.sequence b.sequence⟩

instance : IsTrans MessageRow fun a b => a.sequence ≤ b.sequence :=
  ⟨fun _ _ _ hab hbc => Nat.le_trans hab hbc⟩

/-- Per-session sequence numbers are pairwise distinct — the store invariant
every interleaving of appends and replace-alls maintains. -/
def SeqNodup (db : Db) : Prop :=
  ∀ sessionId, ((rowsFor db sessionId).map fun r => r.sequence).Nodup

end Session

/-! ## The agent loop's per-user-turn attempt loop (main, src/index.ts) -/

namespace Agent

/-- Outcome of one `chat(messages, containerId)` call: the accumulated response
text and the request's reported input-token count, or a thrown error's message. -/
inductive ChatOutcome where
  | ok (response : String) (inputTokens : Nat)
  | err (message : String)
deriving DecidableEq, Repr

/-- Observable actions of one pass through the attempt loop, in order:
model-call attempts, store writes (`saveMessage` of an assistant turn,
`saveCompactedMessages` after compaction with the given keepLast), and the
in-memory-only push of an error turn (`messages.push`, no store write). -/
inductive Event where
  | chatAttempt (attempt : Nat)
  | saveAssistantMessage (content : String)
  | saveCompactedWith (keepLast : Nat)
  | pushAssistantError (content : String)
deriving DecidableEq, Repr

/-- Whether an event is a model-call attempt. -/
def isChatAttempt : Event → Bool
  | .chatAttempt _ => true
  | _ => false

/-- JS `s.trim()`: strip leading and trailing whitespace. -/
def strTrim (s : String) : String :=
  ⟨((s.toList.dropWhile Char.isWhitespace).reverse.dropWhile Char.isWhitespace).reverse⟩

/-- The in-memory working list after an emergency compaction: the compacted
turns with system turns filtered out (`compacted.filter(m => m.role !== "system")`). -/
def emergencyCompacted (summarize : String → Option String)
    (messages : List CoreMessage) : List CoreMessage :=
  (Compaction.compactMessages summarize messages 4).filter fun m =>
    decide (m.role ≠ Role.system)

/-- The success path of one attempt (src/index.ts lines 192–216): persist the
assistant response when its trimmed text is non-empty, then, when
`shouldCompact(inputTokens)`, run the ordinary compactor (keepLast 6), persist
it via `saveCompactedMessages`, and replace the working list with the filtered
compacted turns. Returns (events, new working list). -/
def successSteps (summarize : String → Option String) (messages : List CoreMessage)
    (response : String) (inputTokens : Nat) : List Event × List CoreMessage :=
  let saved :=
    if strTrim response = "" then ([], messages)
    else ([Event.saveAssistantMessage response], messages ++ [⟨Role.assistant, response⟩])
  if Compaction.shouldCompact inputTokens then
    (saved.1 ++ [Event.saveCompactedWith 6],
      (Compaction.compactMessages summarize saved.2 6).filter fun m =>
        decide (m.role ≠ Role.system))
  else saved

/-- The attempt loop of one user turn (src/index.ts lines 190–237), entered with
the working list already containing the user's input. `chat` is the model-call
oracle (given the working list and the attempt index); `summarize` the
summarization oracle the compactor uses. Attempt 0 failure classified as
context overflow runs the emergency compactor (keepLast 4), persists it, and
retries exactly once; any other failure, or failure on attempt 1, pushes an
`Error: <message>` assistant turn onto the in-memory list and stops. -/
def runUserTurn (chat : List CoreMessage → Nat → ChatOutcome)
    (summarize : String → Option String) (messages : List CoreMessage) :
    List Event × List CoreMessage :=
  match chat messages 0 with
  | .ok response inputTokens =>
      let s := successSteps summarize messages response inputTokens
      (Event.chatAttempt 0 :: s.1, s.2)
  | .err m =>
      if Compaction.isContextOverflowError m then
        let compacted := emergencyCompacted summarize messages
        match chat compacted 1 with
        | .ok response inputTokens =>
            let s := successSteps summarize compacted response inputTokens
            (Event.chatAttempt 0 :: Event.saveCompactedWith 4 :: Event.chatAttempt 1 :: s.1,
              s.2)
        | .err m2 =>
            ([Event.chatAttempt 0, Event.saveCompactedWith 4, Event.chatAttempt 1,
                Event.pushAssistantError ("Error: " ++ m2)],
              compacted ++ [⟨Role.assistant, "Error: " ++ m2⟩])
      else
        ([Event.chatAttempt 0, Event.pushAssistantError ("Error: " ++ m)],
          messages ++ [⟨Role.assistant, "Error: " ++ m⟩])

end Agent

/-! ## The sandbox-handle store and container recreation (src/docker.ts) -/

namespace Docker

/-- The docker CLI's behavior during one `ensureDockerContainer` call, as an
oracle: each field is the outcome of the corresponding `execAsync` invocation
(`.ok stdout` = the command printed stdout, `.error e` = it threw). -/
structure DockerWorld where
  psOutput : Except String String
  startResult : String → Except String Unit
  runOutput : Except String String
  rmAndRunOutput : Except String String

/-- The session's sandbox-handle rows (`WHERE session_id = ? LIMIT 1` sees the
first of these). -/
def containersFor (db : Db) (sessionId : String) : List ContainerRow :=
  db.containers.filter fun r => decide (r.sessionId = sessionId)

/-- `saveContainerInfo`: insert a row only when the session has none
(`existing.length === 0`); otherwise leave the store untouched. -/
def saveContainerInfo (db : Db) (sessionId containerId : String) : Db :=
  if (containersFor db sessionId).length = 0 then
    { db with containers := db.containers ++ [⟨sessionId, containerId⟩] }
  else db

/-- `stdout.trim().split(" ")[0]`: the container id column of `docker ps` output. -/
def psId (stdout : String) : String :=
  ((Agent.strTrim stdout).split (fun c => c = ' ')).headD ""

/-- `statusParts.join(" ")`: the status column of `docker ps` output. -/
def psStatus (stdout : String) : String :=
  String.intercalate " " (((Agent.strTrim stdout).split (fun c => c = ' ')).tail)

/-- `ensureDockerContainer`: probe `docker ps -a`; reuse (and if stopped, start)
an existing container, else create one with `docker run`; on a creation failure
remove any stale container and retry the creation once; every successful path
records the id via `saveContainerInfo` and returns it. Returns the updated
store and the container id, or the final error. -/
def ensureDockerContainer (w : DockerWorld) (db : Db) (sessionId : String) :
    Except String (Db × String) :=
  let createPath : Except String (Db × String) :=
    match w.runOutput with
    | .ok stdout =>
        .ok (saveContainerInfo db sessionId (Agent.strTrim stdout), Agent.strTrim stdout)
    | .error _ =>
        match w.rmAndRunOutput with
        | .ok stdout =>
            .ok (saveContainerInfo db sessionId (Agent.strTrim stdout), Agent.strTrim stdout)
        | .error e => .error ("Failed to create Docker container: " ++ e)
  match w.psOutput with
  | .ok stdout =>
      if Agent.strTrim stdout = "" then createPath
      else if Compaction.strIncludes (psStatus stdout) "Up" then
        .ok (saveContainerInfo db sessionId (psId stdout), psId stdout)
      else
        match w.startResult (psId stdout) with
        | .ok _ => .ok (saveContainerInfo db sessionId (psId stdout), psId stdout)
        | .error _ => createPath
  | .error _ => createPath

end Docker

/-- Example history: one system turn followed by eight non-system turns. -/
def exHistory : List CoreMessage :=
  [⟨Role.system, "sys"⟩, ⟨Role.user, "m0"⟩, ⟨Role.assistant, "m1"⟩, ⟨Role.user, "m2"⟩,
    ⟨Role.assistant, "m3"⟩, ⟨Role.user, "m4"⟩, ⟨Role.assistant, "m5"⟩, ⟨Role.user, "m6"⟩,
    ⟨Role.assistant, "m7"⟩]

/-- Example history of exactly seven non-system turns and no system turn. -/
def exHistory7 : List CoreMessage :=
  [⟨Role.user, "m0"⟩, ⟨Role.assistant, "m1"⟩, ⟨Role.user, "m2"⟩, ⟨Role.assistant, "m3"⟩,
    ⟨Role.user, "m4"⟩, ⟨Role.assistant, "m5"⟩, ⟨Role.user, "m6"⟩]

/-- Example docker world: the `docker ps` probe throws and `docker run` prints a
fresh container id. -/
def exDockerWorld : Docker.DockerWorld :=
  ⟨.error "no daemon", fun _ => .ok (), .ok "newid\n", .error "x"⟩

/-- Example store that already holds a sandbox-handle row for session "s". -/
def exContainerDb : Db :=
  ⟨[], [], [⟨"s", "oldid"⟩]⟩

namespace Compaction

/-- C8: for every error message, the overflow classifier returns true iff the
lower-cased message contains "context", "token" or "too long" as a contiguous
substring — case-insensitive substring matching on the message text. -/
theorem isContextOverflowError_iff (message : String) :
    isContextOverflowError message = true ↔
      ("context".toList <:+: (strToLower message).toList
        ∨ "token".toList <:+: (strToLower message).toList
        ∨ "too long".toList <:+: (strToLower message).toList) := by
  simp [isContextOverflowError, strIncludes, or_assoc]

/-- C2: whenever the non-system turn count is at most keepLast, `compactMessages`
is a no-op — it returns the input list itself, unchanged. -/
theorem compactMessages_noop (summarize : String → Option String)
    (messages : List CoreMessage) (keepLast : Nat)
    (h : (nonSystemPart messages).length ≤ keepLast) :
    compactMessages summarize messages keepLast = messages := by
  have hz : (oldPart messages keepLast).length = 0 := by
    by_cases hk : keepLast = 0
    · simp [oldPart, hk]
    · simp only [oldPart, if_neg hk, List.length_take]
      omega
  unfold compactMessages
  rw [if_pos hz]

/-- Witness for C2: three non-system turns with keepLast 6 come back unchanged. -/
theorem compactMessages_noop_witness :
    (nonSystemPart [⟨Role.user, "hi"⟩, ⟨Role.assistant, "ok"⟩, ⟨Role.user, "go"⟩]).length ≤ 6
      ∧ compactMessages (fun _ => none)
          [⟨Role.user, "hi"⟩, ⟨Role.assistant, "ok"⟩, ⟨Role.user, "go"⟩] 6
        = [⟨Role.user, "hi"⟩, ⟨Role.assistant, "ok"⟩, ⟨Role.user, "go"⟩] :=
  ⟨by decide, compactMessages_noop (fun _ => none) _ 6 (by decide)⟩

/-- The system / non-system filters split the history: their lengths add up to
the input length. -/
theorem length_parts (messages : List CoreMessage) :
    (systemPart messages).length + (nonSystemPart messages).length = messages.length := by
  induction messages with
  | nil => rfl
  | cons m ms ih =>
      simp only [systemPart, nonSystemPart, List.filter_cons, decide_not] at ih ⊢
      by_cases h : m.role = Role.system <;> simp [h] <;> omega

/-- C1 (amended): with keepLast ≥ 1, more than keepLast non-system turns and a
successful summarization call, `compactMessages` returns the preserved system
turns, exactly one synthetic assistant summary turn whose content is
`[Summary of <discarded count> previous messages]\n<summary>`, then the last
keepLast non-system turns verbatim; the output length is `|system| + 1 +
keepLast`, which never exceeds the input length and is strictly smaller exactly
when more than keepLast + 1 non-system turns were present (at keepLast + 1 the
lengths are equal, so the claimed unconditional strict decrease fails there). -/
theorem compactMessages_success (summarize : String → Option String)
    (messages : List CoreMessage) (keepLast : Nat) (s : String)
    (hk : 1 ≤ keepLast)
    (h : keepLast < (nonSystemPart messages).length)
    (hs : summarize (summaryPrompt (oldPart messages keepLast)) = some s) :
    compactMessages summarize messages keepLast
        = systemPart messages
            ++ ⟨Role.assistant,
                  "[Summary of " ++ toString ((nonSystemPart messages).length - keepLast)
                    ++ " previous messages]\n" ++ s⟩
              :: recentPart messages keepLast
      ∧ (compactMessages summarize messages keepLast).length
          = (systemPart messages).length + 1 + keepLast
      ∧ (compactMessages summarize messages keepLast).length ≤ messages.length
      ∧ (keepLast + 1 < (nonSystemPart messages).length →
          (compactMessages summarize messages keepLast).length < messages.length) := by
  have hk0 : ¬ keepLast = 0 := by omega
  have hol : (oldPart messages keepLast).length
      = (nonSystemPart messages).length - keepLast := by
    simp only [oldPart, if_neg hk0, List.length_take]
    omega
  have hne : ¬ (oldPart messages keepLast).length = 0 := by omega
  have hrl : (recentPart messages keepLast).length = keepLast := by
    simp only [recentPart, if_neg hk0, List.length_drop]
    omega
  have heq : compactMessages summarize messages keepLast
      = systemPart messages
          ++ ⟨Role.assistant,
                "[Summary of " ++ toString ((nonSystemPart messages).length - keepLast)
                  ++ " previous messages]\n" ++ s⟩
            :: recentPart messages keepLast := by
    unfold compactMessages
    rw [if_neg hne, hs, hol]
  have hp := length_parts messages
  have hlen : (compactMessages summarize messages keepLast).length
      = (systemPart messages).length + 1 + keepLast := by
    rw [heq]
    simp only [List.length_append, List.length_cons, hrl]
    omega
  exact ⟨heq, hlen, by omega, fun _ => by omega⟩

/-- Witness for C1's amended theorem at a concrete history (one system turn,
eight non-system turns, keepLast 6) whose summarization succeeds with "S". -/
theorem compactMessages_success_witness :
    (1 ≤ 6 ∧ 6 < (nonSystemPart exHistory).length
        ∧ (fun _ => (some "S" : Option String)) (summaryPrompt (oldPart exHistory 6)) = some "S")
      ∧ (compactMessages (fun _ => some "S") exHistory 6
            = systemPart exHistory
                ++ ⟨Role.assistant,
                      "[Summary of " ++ toString ((nonSystemPart exHistory).length - 6)
                        ++ " previous messages]\n" ++ "S"⟩
                  :: recentPart exHistory 6
          ∧ (compactMessages (fun _ => some "S") exHistory 6).length
              = (systemPart exHistory).length + 1 + 6
          ∧ (compactMessages (fun _ => some "S") exHistory 6).length ≤ exHistory.length
          ∧ (6 + 1 < (nonSystemPart exHistory).length →
              (compactMessages (fun _ => some "S") exHistory 6).length < exHistory.length)) :=
  ⟨⟨by decide, by decide, rfl⟩,
    compactMessages_success (fun _ => some "S") exHistory 6 "S" (by decide) (by decide) rfl⟩

/-- Counterexample for C1 as stated: seven non-system turns, keepLast 6, the
summarization call succeeds, yet the output is exactly as long as the input —
the claimed strict length decrease does not hold. -/
theorem compactMessages_no_strict_shrink :
    6 < (nonSystemPart exHistory7).length
      ∧ (compactMessages (fun _ => some "S") exHistory7 6).length = exHistory7.length
      ∧ ¬ ((compactMessages (fun _ => some "S") exHistory7 6).length
            < exHistory7.length) := by decide

/-- C3: with keepLast ≥ 1, more than keepLast non-system turns and a failing
summarization call, `compactMessages` returns exactly the preserved system
turns followed by the last keepLast non-system turns — no summary turn — and,
being a total function, it returns rather than raises. -/
theorem compactMessages_failure_fallback (summarize : String → Option String)
    (messages : List CoreMessage) (keepLast : Nat)
    (hk : 1 ≤ keepLast)
    (h : keepLast < (nonSystemPart messages).length)
    (hs : summarize (summaryPrompt (oldPart messages keepLast)) = none) :
    compactMessages summarize messages keepLast
        = systemPart messages ++ recentPart messages keepLast
      ∧ (compactMessages summarize messages keepLast).length
          = (systemPart messages).length + keepLast := by
  have hk0 : ¬ keepLast = 0 := by omega
  have hol : (oldPart messages keepLast).length
      = (nonSystemPart messages).length - keepLast := by
    simp only [oldPart, if_neg hk0, List.length_take]
    omega
  have hne : ¬ (oldPart messages keepLast).length = 0 := by omega
  have hrl : (recentPart messages keepLast).length = keepLast := by
    simp only [recentPart, if_neg hk0, List.length_drop]
    omega
  have heq : compactMessages summarize messages keepLast
      = systemPart messages ++ recentPart messages keepLast := by
    unfold compactMessages
    rw [if_neg hne, hs]
  refine ⟨heq, ?_⟩
  rw [heq]
  simp only [List.length_append, hrl]

/-- Witness for C3 at a concrete history (one system turn, eight non-system
turns, keepLast 6) whose summarization call fails. -/
theorem compactMessages_failure_fallback_witness :
    (1 ≤ 6 ∧ 6 < (nonSystemPart exHistory).length
        ∧ (fun _ => (none : Option String)) (summaryPrompt (oldPart exHistory 6)) = none)
      ∧ (compactMessages (fun _ => none) exHistory 6
            = systemPart exHistory ++ recentPart exHistory 6
          ∧ (compactMessages (fun _ => none) exHistory 6).length
              = (systemPart exHistory).length + 6) :=
  ⟨⟨by decide, by decide, rfl⟩,
    compactMessages_failure_fallback (fun _ => none) exHistory 6 (by decide) (by decide) rfl⟩

end Compaction

namespace CompactionAlt

/-- Integer form of `Math.ceil(c * 0.25)`: `(c + 3) / 4` is the ceiling of a
quarter of `c` (the multiplication by 0.25 is exact in binary floating point). -/
theorem ceil_quarter (c : Nat) : (c + 3) / 4 = ⌈(c : ℚ) * 0.25⌉₊ := by
  have h4 : (0.25 : ℚ) = 1 / 4 := by norm_num
  rw [h4, mul_one_div]
  rcases Nat.eq_zero_or_pos c with hc | hc
  · subst hc; simp
  · have hne : ((c + 3) / 4 : ℕ) ≠ 0 := by omega
    rw [eq_comm, Nat.ceil_eq_iff hne]
    constructor
    · rw [lt_div_iff₀ (by norm_num : (0 : ℚ) < 4)]
      exact_mod_cast (by omega : ((c + 3) / 4 - 1) * 4 < c)
    · rw [div_le_iff₀ (by norm_num : (0 : ℚ) < 4)]
      exact_mod_cast (by omega : c ≤ ((c + 3) / 4) * 4)

/-- C5: the budget estimate is the ceiling of 0.25 times the total character
length of all turn contents, hence monotonically non-decreasing in total
character length, and `shouldCompact` holds iff the estimate strictly exceeds
the 150000 threshold. -/
theorem estimateTokens_spec (m1 m2 : List CoreMessage)
    (h : totalChars m1 ≤ totalChars m2) :
    estimateTokens m1 = ⌈(totalChars m1 : ℚ) * 0.25⌉₊
      ∧ estimateTokens m1 ≤ estimateTokens m2
      ∧ (shouldCompact m1 = true ↔ 150000 < estimateTokens m1) := by
  refine ⟨ceil_quarter _, ?_, ?_⟩
  · unfold estimateTokens
    exact Nat.div_le_div_right (by omega)
  · simp [shouldCompact, CONTEXT_LIMIT_TOKENS]

/-- Witness for C5 at two concrete histories of 2 and 4 total characters. -/
theorem estimateTokens_spec_witness :
    totalChars [(⟨Role.user, "ab"⟩ : CoreMessage)]
        ≤ totalChars [(⟨Role.user, "abcd"⟩ : CoreMessage)]
      ∧ (estimateTokens [(⟨Role.user, "ab"⟩ : CoreMessage)]
            = ⌈(totalChars [(⟨Role.user, "ab"⟩ : CoreMessage)] : ℚ) * 0.25⌉₊
          ∧ estimateTokens [(⟨Role.user, "ab"⟩ : CoreMessage)]
              ≤ estimateTokens [(⟨Role.user, "abcd"⟩ : CoreMessage)]
          ∧ (shouldCompact [(⟨Role.user, "ab"⟩ : CoreMessage)] = true
              ↔ 150000 < estimateTokens [(⟨Role.user, "ab"⟩ : CoreMessage)])) :=
  ⟨by decide, estimateTokens_spec _ _ (by decide)⟩

end CompactionAlt

namespace Session

/-- Every row of a session's row set carries a sequence number strictly below
`nextSequence` — the freshly assigned number exceeds the current maximum. -/
theorem sequence_lt_nextSequence (db : Db) (sessionId : String) (r : MessageRow)
    (hr : r ∈ rowsFor db sessionId) : r.sequence < nextSequence db sessionId := by
  unfold nextSequence
  cases hmax : ((rowsFor db sessionId).map fun r => r.sequence).max? with
  | none =>
      rw [List.max?_eq_none_iff, List.map_eq_nil_iff] at hmax
      rw [hmax] at hr
      cases hr
  | some m =>
      have hle := (List.max?_eq_some_iff'.mp hmax).2 r.sequence
        (List.mem_map_of_mem _ hr)
      show r.sequence < m + 1
      omega

/-- `saveMessage` extends exactly the target session's row set, with the row
carrying `nextSequence`; other sessions' row sets are untouched. -/
theorem rowsFor_saveMessage (db : Db) (sid sessionId : String) (role : Role)
    (content : String) (now : Nat) :
    rowsFor (saveMessage db sid role content now) sessionId
      = rowsFor db sessionId
          ++ if sid = sessionId then [⟨sid, role, content, nextSequence db sid⟩] else [] := by
  have hm : (saveMessage db sid role content now).messages
      = db.messages ++ [⟨sid, role, content, nextSequence db sid⟩] := rfl
  unfold rowsFor
  rw [hm, List.filter_append]
  by_cases h : sid = sessionId <;> simp [rowsFor, h]

/-- Every row the compaction write inserts belongs to the written session. -/
theorem mem_compactedRows (sessionId : String) (ms : List CoreMessage) :
    ∀ (i : Nat) (r : MessageRow),
      r ∈ compactedRows sessionId i ms → r.sessionId = sessionId := by
  induction ms with
  | nil => intro i r hr; cases hr
  | cons m ms ih =>
      intro i r hr
      rcases List.mem_cons.mp hr with h | h
      · rw [h]
      · exact ih (i + 1) r h

/-- The sequence numbers the compaction write assigns are i, i+1, ... in order. -/
theorem map_sequence_compactedRows (sessionId : String) (ms : List CoreMessage) :
    ∀ i : Nat,
      ((compactedRows sessionId i ms).map fun r => r.sequence) = List.range' i ms.length := by
  induction ms with
  | nil => intro i; rfl
  | cons m ms ih =>
      intro i
      simp only [compactedRows, List.map_cons, List.length_cons, List.range'_succ, ih]

/-- Projecting the compaction write's rows back to turns recovers the input. -/
theorem map_toCore_compactedRows (sessionId : String) (ms : List CoreMessage) :
    ∀ i : Nat,
      ((compactedRows sessionId i ms).map fun r => (⟨r.role, r.content⟩ : CoreMessage)) = ms := by
  induction ms with
  | nil => intro i; rfl
  | cons m ms ih =>
      intro i
      simp only [compactedRows, List.map_cons, ih]

/-- Rows the compaction write inserts from index i on carry sequence ≥ i. -/
theorem le_sequence_compactedRows (sessionId : String) (ms : List CoreMessage) :
    ∀ (i : Nat) (r : MessageRow), r ∈ compactedRows sessionId i ms → i ≤ r.sequence := by
  induction ms with
  | nil => intro i r hr; cases hr
  | cons m ms ih =>
      intro i r hr
      rcases List.mem_cons.mp hr with h | h
      · rw [h]
      · exact Nat.le_of_succ_le (ih (i + 1) r h)

/-- The compaction write's rows are already sorted by sequence. -/
theorem pairwise_compactedRows (sessionId : String) (ms : List CoreMessage) :
    ∀ i : Nat,
      (compactedRows sessionId i ms).Pairwise fun a b => a.sequence ≤ b.sequence := by
  induction ms with
  | nil => intro i; exact List.Pairwise.nil
  | cons m ms ih =>
      intro i
      refine List.Pairwise.cons (fun b hb => ?_) (ih (i + 1))
      have hle := le_sequence_compactedRows sessionId ms (i + 1) b hb
      show i ≤ b.sequence
      omega

/-- `saveCompactedMessages` replaces the target session's row set with the
renumbered rows and leaves every other session's row set untouched. -/
theorem rowsFor_saveCompactedMessages (db : Db) (sid sessionId : String)
    (turns : List CoreMessage) :
    rowsFor (saveCompactedMessages db sid turns) sessionId
      = if sid = sessionId then compactedRows sid 0 turns else rowsFor db sessionId := by
  have hm : (saveCompactedMessages db sid turns).messages
      = (db.messages.filter fun r => decide (¬ r.sessionId = sid))
          ++ compactedRows sid 0 turns := rfl
  unfold rowsFor
  rw [hm, List.filter_append]
  by_cases hs : sid = sessionId
  · subst hs
    have h1 : ((db.messages.filter fun r => decide (¬ r.sessionId = sid)).filter
        fun r => decide (r.sessionId = sid)) = [] := by
      simp only [List.filter_filter]
      rw [List.filter_eq_nil_iff]
      intro r _
      by_cases hr : r.sessionId = sid <;> simp [hr]
    have h2 : ((compactedRows sid 0 turns).filter fun r => decide (r.sessionId = sid))
        = compactedRows sid 0 turns := by
      rw [List.filter_eq_self]
      intro r hr
      simp [mem_compactedRows sid turns 0 r hr]
    rw [if_pos rfl, h1, h2, List.nil_append]
  · rw [if_neg hs]
    have hs' : ¬ sessionId = sid := fun heq => hs heq.symm
    have h2 : ((compactedRows sid 0 turns).filter fun r => decide (r.sessionId = sessionId))
        = [] := by
      rw [List.filter_eq_nil_iff]
      intro r hr
      have hmem := mem_compactedRows sid turns 0 r hr
      simp [hmem, hs]
    have h1 : ((db.messages.filter fun r => decide (¬ r.sessionId = sid)).filter
        fun r => decide (r.sessionId = sessionId))
        = db.messages.filter fun r => decide (r.sessionId = sessionId) := by
      simp only [List.filter_filter]
      apply List.filter_congr
      intro r _
      by_cases hr : r.sessionId = sessionId <;> simp [hr, hs']
    rw [h1, h2, List.append_nil]

/-- The empty store satisfies the sequence-distinctness invariant. -/
theorem seqNodup_empty : SeqNodup emptyDb := by
  intro sessionId
  simp [rowsFor, emptyDb]

/-- `saveMessage` preserves the sequence-distinctness invariant: the appended
row's sequence exceeds every existing one for its session. -/
theorem seqNodup_saveMessage (db : Db) (sid : String) (role : Role) (content : String)
    (now : Nat) (h : SeqNodup db) : SeqNodup (saveMessage db sid role content now) := by
  intro sessionId
  rw [rowsFor_saveMessage]
  by_cases hs : sid = sessionId
  · subst hs
    rw [if_pos rfl, List.map_append, List.nodup_append]
    refine ⟨h sid, List.nodup_singleton _, ?_⟩
    intro a ha hb
    rcases List.mem_map.mp ha with ⟨r, hr, rfl⟩
    have hlt := sequence_lt_nextSequence db sid r hr
    simp only [List.map_cons, List.map_nil, List.mem_singleton] at hb
    omega
  · rw [if_neg hs, List.append_nil]
    exact h sessionId

/-- `saveCompactedMessages` preserves the sequence-distinctness invariant: the
written rows carry the distinct numbers 0..N-1. -/
theorem seqNodup_saveCompacted (db : Db) (sid : String) (turns : List CoreMessage)
    (h : SeqNodup db) : SeqNodup (saveCompactedMessages db sid turns) := by
  intro sessionId
  rw [rowsFor_saveCompactedMessages]
  by_cases hs : sid = sessionId
  · rw [if_pos hs, map_sequence_compactedRows]
    exact List.nodup_range' 0 turns.length
  · rw [if_neg hs]
    exact h sessionId

/-- Every store reachable from the empty one by appends and replace-alls
satisfies the sequence-distinctness invariant. -/
theorem seqNodup_applyOps (ops : List StoreOp) :
    SeqNodup (applyOps ops emptyDb) := by
  have main : ∀ db, SeqNodup db → SeqNodup (applyOps ops db) := by
    induction ops with
    | nil => intro db h; exact h
    | cons op ops ih =>
        intro db h
        cases op with
        | append sid role content now =>
            exact ih _ (seqNodup_saveMessage db sid role content now h)
        | replaceAll sid turns =>
            exact ih _ (seqNodup_saveCompacted db sid turns h)
  exact main emptyDb seqNodup_empty

/-- C6: after any interleaving of appends and replace-alls starting from the
empty store, a session's loaded rows are strictly increasing in sequence (so
sequence numbers never repeat), and the append operation's sequence assignment
is 0 for a session with no rows and otherwise exceeds every stored sequence
(one greater than the current maximum). -/
theorem load_sequences_strictly_increasing (ops : List StoreOp) (sessionId : String) :
    (((loadRows (applyOps ops emptyDb) sessionId).map fun r => r.sequence).Pairwise (· < ·))
      ∧ (rowsFor (applyOps ops emptyDb) sessionId = []
          → nextSequence (applyOps ops emptyDb) sessionId = 0)
      ∧ (∀ r ∈ rowsFor (applyOps ops emptyDb) sessionId,
          r.sequence < nextSequence (applyOps ops emptyDb) sessionId) := by
  refine ⟨?_, ?_, fun r hr => sequence_lt_nextSequence _ _ r hr⟩
  · have hsorted : (loadRows (applyOps ops emptyDb) sessionId).Pairwise
        (fun a b => a.sequence ≤ b.sequence) :=
      List.sorted_insertionSort _ _
    have hperm : List.Perm (loadRows (applyOps ops emptyDb) sessionId)
        (rowsFor (applyOps ops emptyDb) sessionId) :=
      List.perm_insertionSort _ _
    have hnd : ((loadRows (applyOps ops emptyDb) sessionId).map fun r => r.sequence).Nodup :=
      ((hperm.map _).nodup_iff).mpr (seqNodup_applyOps ops sessionId)
    have hnd' := List.pairwise_map.mp hnd
    rw [List.pairwise_map]
    exact (hsorted.and hnd').imp fun hab => lt_of_le_of_ne hab.1 hab.2
  · intro hempty
    unfold nextSequence
    rw [hempty]
    rfl

/-- C7: a replace-all followed by a load returns exactly the written turns in
their given order; at the row level the session's set is exactly the renumbered
rows with sequences 0..N-1, every previously stored row having been removed. -/
theorem saveCompactedMessages_load (db : Db) (sessionId : String)
    (turns : List CoreMessage) :
    loadMessages (saveCompactedMessages db sessionId turns) sessionId = turns
      ∧ rowsFor (saveCompactedMessages db sessionId turns) sessionId
          = compactedRows sessionId 0 turns
      ∧ ((rowsFor (saveCompactedMessages db sessionId turns) sessionId).map
            fun r => r.sequence)
          = List.range turns.length := by
  have hrows : rowsFor (saveCompactedMessages db sessionId turns) sessionId
      = compactedRows sessionId 0 turns := by
    rw [rowsFor_saveCompactedMessages, if_pos rfl]
  have hsorted : (compactedRows sessionId 0 turns).Pairwise
      (fun a b => a.sequence ≤ b.sequence) := pairwise_compactedRows sessionId turns 0
  have hload : loadRows (saveCompactedMessages db sessionId turns) sessionId
      = compactedRows sessionId 0 turns := by
    unfold loadRows
    rw [hrows]
    exact List.Sorted.insertionSort_eq hsorted
  refine ⟨?_, hrows, ?_⟩
  · unfold loadMessages
    rw [hload]
    exact map_toCore_compactedRows sessionId turns 0
  · rw [hrows, map_sequence_compactedRows, List.range_eq_range']

/-- C9: `saveCompactedMessages` never touches the session relation — singly or
iterated it leaves every session row (in particular updatedAt) exactly as it
was — while `saveMessage` sets the target session's updatedAt to the append
time; so a session whose history was only ever compacted after its last append
keeps that append's updatedAt. -/
theorem saveCompactedMessages_sessions_frame (db : Db) (sessionId : String)
    (turns : List CoreMessage) (compactions : List (String × List CoreMessage))
    (role : Role) (content : String) (now : Nat) :
    (saveCompactedMessages db sessionId turns).sessions = db.sessions
      ∧ (compactions.foldl (fun d c => saveCompactedMessages d c.1 c.2) db).sessions
          = db.sessions
      ∧ (∀ s ∈ (saveMessage db sessionId role content now).sessions,
          s.id = sessionId → s.updatedAt = now) := by
  refine ⟨rfl, ?_, ?_⟩
  · have main : ∀ d : Db,
        (compactions.foldl (fun d c => saveCompactedMessages d c.1 c.2) d).sessions
          = d.sessions := by
      induction compactions with
      | nil => intro d; rfl
      | cons c cs ih => intro d; exact (ih _).trans rfl
    exact main db
  · intro s hs hid
    rcases List.mem_map.mp hs with ⟨s0, _, rfl⟩
    by_cases h0 : s0.id = sessionId
    · simp [h0]
    · simp only [if_neg h0] at hid ⊢
      exact absurd hid h0

end Session

namespace Agent

/-- The success path emits no model-call attempt and no emergency keepLast-4
compaction event (its proactive compaction uses keepLast 6). -/
theorem successSteps_counts (summarize : String → Option String)
    (messages : List CoreMessage) (response : String) (inputTokens : Nat) :
    ((successSteps summarize messages response inputTokens).1.countP isChatAttempt = 0)
      ∧ ((successSteps summarize messages response inputTokens).1.count
          (Event.saveCompactedWith 4) = 0) := by
  unfold successSteps
  by_cases h1 : strTrim response = "" <;>
    by_cases h2 : Compaction.shouldCompact inputTokens = true <;>
      simp [h1, h2, isChatAttempt, List.countP_cons, List.count_cons]

/-- A successful first attempt runs the success path after the single attempt. -/
theorem runUserTurn_ok (chat : List CoreMessage → Nat → ChatOutcome)
    (summarize : String → Option String) (messages : List CoreMessage)
    (response : String) (inputTokens : Nat)
    (h0 : chat messages 0 = ChatOutcome.ok response inputTokens) :
    runUserTurn chat summarize messages
      = (Event.chatAttempt 0 :: (successSteps summarize messages response inputTokens).1,
          (successSteps summarize messages response inputTokens).2) := by
  simp [runUserTurn, h0]

/-- Overflow on attempt 0 followed by success on attempt 1. -/
theorem runUserTurn_err_overflow_ok (chat : List CoreMessage → Nat → ChatOutcome)
    (summarize : String → Option String) (messages : List CoreMessage)
    (m response : String) (inputTokens : Nat)
    (h0 : chat messages 0 = ChatOutcome.err m)
    (hov : Compaction.isContextOverflowError m = true)
    (h1 : chat (emergencyCompacted summarize messages) 1
        = ChatOutcome.ok response inputTokens) :
    runUserTurn chat summarize messages
      = (Event.chatAttempt 0 :: Event.saveCompactedWith 4 :: Event.chatAttempt 1 ::
            (successSteps summarize (emergencyCompacted summarize messages)
              response inputTokens).1,
          (successSteps summarize (emergencyCompacted summarize messages)
            response inputTokens).2) := by
  simp [runUserTurn, h0, hov, h1]

/-- Overflow on attempt 0 followed by a failure on attempt 1: the error turn is
pushed onto the in-memory list only. -/
theorem runUserTurn_err_overflow_err (chat : List CoreMessage → Nat → ChatOutcome)
    (summarize : String → Option String) (messages : List CoreMessage) (m m2 : String)
    (h0 : chat messages 0 = ChatOutcome.err m)
    (hov : Compaction.isContextOverflowError m = true)
    (h1 : chat (emergencyCompacted summarize messages) 1 = ChatOutcome.err m2) :
    runUserTurn chat summarize messages
      = ([Event.chatAttempt 0, Event.saveCompactedWith 4, Event.chatAttempt 1,
            Event.pushAssistantError ("Error: " ++ m2)],
          emergencyCompacted summarize messages ++ [⟨Role.assistant, "Error: " ++ m2⟩]) := by
  simp [runUserTurn, h0, hov, h1]

/-- A non-overflow failure on attempt 0 stops immediately: the error turn is
pushed onto the in-memory list only. -/
theorem runUserTurn_err_other (chat : List CoreMessage → Nat → ChatOutcome)
    (summarize : String → Option String) (messages : List CoreMessage) (m : String)
    (h0 : chat messages 0 = ChatOutcome.err m)
    (hov : Compaction.isContextOverflowError m = false) :
    runUserTurn chat summarize messages
      = ([Event.chatAttempt 0, Event.pushAssistantError ("Error: " ++ m)],
          messages ++ [⟨Role.assistant, "Error: " ++ m⟩]) := by
  simp [runUserTurn, h0, hov]

/-- C4 (amended): in the per-user-turn attempt loop, there are never more than
two model-call attempts; an overflow-classified failure on the first attempt
causes exactly one emergency compaction persisted via replaceAll with keepLast
4 and exactly one retry; a non-overflow failure causes a single attempt with an
`Error:` assistant turn appended to the in-memory working list (not persisted
to the message store) and no compaction; overflow on both attempts likewise
ends after the second attempt with the error turn only pushed in-memory. -/
theorem runUserTurn_retry_policy (chat : List CoreMessage → Nat → ChatOutcome)
    (summarize : String → Option String) (messages : List CoreMessage) :
    ((runUserTurn chat summarize messages).1.countP isChatAttempt ≤ 2)
      ∧ (∀ m, chat messages 0 = ChatOutcome.err m
          → Compaction.isContextOverflowError m = true
          → (runUserTurn chat summarize messages).1.count (Event.saveCompactedWith 4) = 1
            ∧ (runUserTurn chat summarize messages).1.countP isChatAttempt = 2)
      ∧ (∀ m, chat messages 0 = ChatOutcome.err m
          → Compaction.isContextOverflowError m = false
          → (runUserTurn chat summarize messages).1
              = [Event.chatAttempt 0, Event.pushAssistantError ("Error: " ++ m)]
            ∧ (runUserTurn chat summarize messages).2
                = messages ++ [⟨Role.assistant, "Error: " ++ m⟩])
      ∧ (∀ m m2, chat messages 0 = ChatOutcome.err m
          → Compaction.isContextOverflowError m = true
          → chat (emergencyCompacted summarize messages) 1 = ChatOutcome.err m2
          → (runUserTurn chat summarize messages).1
              = [Event.chatAttempt 0, Event.saveCompactedWith 4, Event.chatAttempt 1,
                  Event.pushAssistantError ("Error: " ++ m2)]
            ∧ (runUserTurn chat summarize messages).2
                = emergencyCompacted summarize messages
                    ++ [⟨Role.assistant, "Error: " ++ m2⟩]) := by
  refine ⟨?_, ?_, ?_, ?_⟩
  · cases h0 : chat messages 0 with
    | ok response inputTokens =>
        rw [runUserTurn_ok chat summarize messages response inputTokens h0]
        have hc := (successSteps_counts summarize messages response inputTokens).1
        simp [List.countP_cons, isChatAttempt, hc]
    | err m =>
        by_cases hov : Compaction.isContextOverflowError m = true
        · cases h1 : chat (emergencyCompacted summarize messages) 1 with
          | ok response inputTokens =>
              rw [runUserTurn_err_overflow_ok chat summarize messages m response
                inputTokens h0 hov h1]
              have hc := (successSteps_counts summarize
                (emergencyCompacted summarize messages) response inputTokens).1
              simp [List.countP_cons, isChatAttempt, hc]
          | err m2 =>
              rw [runUserTurn_err_overflow_err chat summarize messages m m2 h0 hov h1]
              simp [List.countP_cons, isChatAttempt]
        · have hov' : Compaction.isContextOverflowError m = false := by
            cases hE : Compaction.isContextOverflowError m
            · rfl
            · exact absurd hE hov
          rw [runUserTurn_err_other chat summarize messages m h0 hov']
          simp [List.countP_cons, isChatAttempt]
  · intro m hm hov
    cases h0 : chat messages 0 with
    | ok response inputTokens => rw [h0] at hm; simp at hm
    | err m0 =>
        rw [h0] at hm
        injection hm with hmm
        subst hmm
        cases h1 : chat (emergencyCompacted summarize messages) 1 with
        | ok response inputTokens =>
            rw [runUserTurn_err_overflow_ok _ _ _ _ _ _ h0 hov h1]
            have hc1 := (successSteps_counts summarize
              (emergencyCompacted summarize messages) response inputTokens).1
            have hc2 := (successSteps_counts summarize
              (emergencyCompacted summarize messages) response inputTokens).2
            constructor
            · simp [List.count_cons, hc2]
            · simp [List.countP_cons, isChatAttempt, hc1]
        | err m2 =>
            rw [runUserTurn_err_overflow_err _ _ _ _ _ h0 hov h1]
            constructor
            · simp [List.count_cons]
            · simp [List.countP_cons, isChatAttempt]
  · intro m hm hov
    cases h0 : chat messages 0 with
    | ok response inputTokens => rw [h0] at hm; simp at hm
    | err m0 =>
        rw [h0] at hm
        injection hm with hmm
        subst hmm
        rw [runUserTurn_err_other _ _ _ _ h0 hov]
        exact ⟨rfl, rfl⟩
  · intro m m2 hm hov h1
    cases h0 : chat messages 0 with
    | ok response inputTokens => rw [h0] at hm; simp at hm
    | err m0 =>
        rw [h0] at hm
        injection hm with hmm
        subst hmm
        rw [runUserTurn_err_overflow_err _ _ _ _ _ h0 hov h1]
        exact ⟨rfl, rfl⟩

/-- C4 counterexample: overflow on both attempts at a concrete input. The loop
stops after the second attempt and the `Error:` assistant turn appears only in
the in-memory working list — no `saveMessage` store write records it, contrary
to the claim that it is persisted. -/
theorem runUserTurn_error_turn_not_persisted :
    (runUserTurn (fun _ _ => ChatOutcome.err "context length exceeded") (fun _ => none)
          [⟨Role.user, "hi"⟩]).1
        = [Event.chatAttempt 0, Event.saveCompactedWith 4, Event.chatAttempt 1,
            Event.pushAssistantError "Error: context length exceeded"]
      ∧ Event.saveAssistantMessage "Error: context length exceeded"
          ∉ (runUserTurn (fun _ _ => ChatOutcome.err "context length exceeded")
              (fun _ => none) [⟨Role.user, "hi"⟩]).1
      ∧ (runUserTurn (fun _ _ => ChatOutcome.err "context length exceeded")
            (fun _ => none) [⟨Role.user, "hi"⟩]).2
          = [⟨Role.user, "hi"⟩, ⟨Role.assistant, "Error: context length exceeded"⟩] := by
  decide

end Agent

namespace Docker

/-- C10: the sandbox-handle row is write-once. When a session already has a
stored row, `saveContainerInfo` is a no-op for any container id, every
successful `ensureDockerContainer` run leaves the store unchanged, and in the
recreate scenario (the `docker ps` probe fails and `docker run` prints a fresh
id) the function returns the new container id while the stored row keeps the
old one. -/
theorem containerRow_write_once (w : DockerWorld) (db : Db) (sessionId : String)
    (hrow : containersFor db sessionId ≠ []) :
    (∀ containerId, saveContainerInfo db sessionId containerId = db)
      ∧ (∀ db' id, ensureDockerContainer w db sessionId = .ok (db', id) → db' = db)
      ∧ (∀ e stdout, w.psOutput = .error e → w.runOutput = .ok stdout →
          ensureDockerContainer w db sessionId = .ok (db, Agent.strTrim stdout)) := by
  have hsave : ∀ containerId, saveContainerInfo db sessionId containerId = db := by
    intro containerId
    unfold saveContainerInfo
    rw [if_neg fun hl => hrow (List.length_eq_zero.mp hl)]
  refine ⟨hsave, ?_, ?_⟩
  · intro db' id h
    unfold ensureDockerContainer at h
    simp only [hsave] at h
    repeat' split at h
    all_goals simp_all
  · intro e stdout hps hrun
    unfold ensureDockerContainer
    simp only [hps, hrun, hsave]

/-- Witness for C10 at a concrete store holding a row ("s", "oldid") and a
docker world whose probe fails and whose `docker run` prints "newid". -/
theorem containerRow_write_once_witness :
    containersFor exContainerDb "s" ≠ []
      ∧ ((∀ containerId, saveContainerInfo exContainerDb "s" containerId = exContainerDb)
          ∧ (∀ db' id, ensureDockerContainer exDockerWorld exContainerDb "s" = .ok (db', id)
              → db' = exContainerDb)
          ∧ (∀ e stdout, exDockerWorld.psOutput = .error e
              → exDockerWorld.runOutput = .ok stdout
              → ensureDockerContainer exDockerWorld exContainerDb "s"
                  = .ok (exContainerDb, Agent.strTrim stdout))) :=
  ⟨by decide, containerRow_write_once exDockerWorld exContainerDb "s" (by decide)⟩

end Docker
